import Mathlib

/-!
Verification of the feed watermark / new-item detection logic of the
yt2tg repository (yt-monitor.py, yt2tg.py, yt2tglocal.py).

Timestamps are modelled as `Nat` (the code only ever compares and maxes
parsed UTC datetimes, so any linearly ordered carrier is faithful).
Strings manipulated character by character are modelled as `List Char`.
-/

/-- A feed entry as consumed by the scripts: an identifier and its
published timestamp (yt-monitor.py line 55, yt2tg.py lines 92-107;
the other fields - title, link, author - play no role in the
watermark logic). -/
structure FeedItem where
  id : Nat
  published : Nat
deriving DecidableEq

/-- The condition `last_seen is None or published > last_seen`
(yt-monitor.py line 56, yt2tg.py line 100). -/
def isNew (last_seen : Option Nat) (published : Nat) : Bool :=
  match last_seen with
  | none => true
  | some w => decide (published > w)

/-- The comparison relation used by `new_videos.sort(key=lambda x: x[0])`
(yt-monitor.py line 64) and `new_videos.sort(key=lambda x: x['published'])`
(yt2tg.py line 110): ascending published timestamp. -/
def publishedLE (a b : FeedItem) : Prop := a.published ≤ b.published

instance : DecidableRel publishedLE := fun a b => Nat.decLe a.published b.published

instance : IsTotal FeedItem publishedLE := ⟨fun a b => Nat.le_total a.published b.published⟩

instance : IsTrans FeedItem publishedLE := ⟨fun _ _ _ h₁ h₂ => Nat.le_trans h₁ h₂⟩

/-- The new-item computation shared by yt-monitor.py lines 54-64 and
yt2tg.py lines 92-111: keep the entries strictly newer than the
watermark (all of them when there is no watermark), then sort
ascending by published timestamp (Python `list.sort` is a stable
comparison sort; insertion sort models it). -/
def computeNew (entries : List FeedItem) (last_seen : Option Nat) : List FeedItem :=
  List.insertionSort publishedLE (entries.filter fun e => isNew last_seen e.published)

/-- The watermark update `if newest_timestamp is None or published > newest_timestamp:
newest_timestamp = published` (yt-monitor.py lines 76-77), as a function of the
current value and the candidate. -/
def advance (current : Option Nat) (candidate : Nat) : Nat :=
  match current with
  | none => candidate
  | some c => if candidate > c then candidate else c

/-- State of the one-record watermark store `last_seen.json`: missing file,
present but unreadable/malformed, or holding a valid timestamp record. -/
inductive StoreState where
  | absent
  | malformed
  | valid (ts : Nat)
deriving DecidableEq

/-- `load_last_seen` of yt-monitor.py lines 33-38: no try/except, so a
malformed record makes `json.load` / `fromisoformat` raise an uncaught
exception (modelled as `.error ()`), which aborts the script. -/
def load_last_seen : StoreState → Except Unit (Option Nat)
  | .absent => .ok none
  | .malformed => .error ()
  | .valid ts => .ok (some ts)

/-- `FeedMonitor.load_last_seen` of yt2tg.py lines 56-67: the read and parse
are wrapped in try/except, so a malformed record is logged and treated
as no watermark. -/
def yt2tg_load_last_seen : StoreState → Option Nat
  | .absent => none
  | .malformed => none
  | .valid ts => some ts

/-- Observable outcome of one script invocation: process exit code, final
store state, and the sequence of (item, per-item success) upload attempts
made by the processing loop (in order). -/
structure RunResult where
  exitCode : Nat
  store : StoreState
  processed : List (FeedItem × Bool)
deriving DecidableEq

/-- One invocation of yt-monitor.py as a whole script.
`configOk` is whether YOUTUBE_CHANNEL_ID is set (lines 25-28), `parseOk`
is whether `feed.bozo` is clear (lines 46-48), `entries` the parsed feed,
`ok` whether the per-item `subprocess.run` of the uploader succeeds
(line 71; a failure raises CalledProcessError, caught at lines 73-74 and
only logged), `st` the state of last_seen.json.  A malformed store makes
`load_last_seen` raise (line 36-37 have no handler), which ends the
process with the interpreter's uncaught-exception exit code 1.
The watermark update (lines 76-77) runs for every item whether or not
its upload succeeded, and the result is saved once at the end
(lines 80-81; a datetime is always truthy, so the guard only tests
for None). -/
def monitorMain (configOk : Bool) (parseOk : Bool) (entries : List FeedItem)
    (ok : FeedItem → Bool) (st : StoreState) : RunResult :=
  if ¬configOk then ⟨1, st, []⟩
  else if ¬parseOk then ⟨1, st, []⟩
  else
    match load_last_seen st with
    | .error _ => ⟨1, st, []⟩
    | .ok last_seen =>
      let new_videos := computeNew entries last_seen
      if new_videos = [] then ⟨0, st, []⟩
      else
        let newest := new_videos.foldl (fun acc v => some (advance acc v.published)) last_seen
        let st' := match newest with
          | some t => StoreState.valid t
          | none => st
        ⟨0, st', new_videos.map fun v => (v, ok v)⟩

/-- `FeedMonitor.get_new_videos` (yt2tg.py lines 77-111): when the feed is
bozo it logs and returns the empty list (lines 83-85); otherwise it loads
the watermark (malformed treated as none) and filters/sorts. -/
def get_new_videos (parseOk : Bool) (entries : List FeedItem) (st : StoreState) :
    List FeedItem :=
  if ¬parseOk then []
  else computeNew entries (yt2tg_load_last_seen st)

/-- The processing loop of `FeedMonitor.start` (yt2tg.py lines 290-323),
restricted to its effect on the store: `succ v` collapses "the spawned
download produced the expected file and the Telegram upload returned
True"; exactly then `save_last_seen(video['published'])` runs (lines
305-310).  Every failure path (`continue` at line 298, the missing-file
and failed-upload branches) just moves on to the next item. -/
def startLoop (succ : FeedItem → Bool) (st : StoreState) (videos : List FeedItem) :
    StoreState :=
  videos.foldl (fun s v => if succ v then StoreState.valid v.published else s) st

/-- One invocation of yt2tg.py: `main` constructs `FeedMonitor`, whose
`verify_config` exits 1 when any of the three variables is missing
(lines 50-54); otherwise `start` runs to completion and the process
exits 0 - there is no other exit path, a bozo feed merely yields an
empty new-video list. -/
def yt2tgMain (configOk : Bool) (parseOk : Bool) (entries : List FeedItem)
    (succ : FeedItem → Bool) (st : StoreState) : RunResult :=
  if ¬configOk then ⟨1, st, []⟩
  else
    let new_videos := get_new_videos parseOk entries st
    ⟨0, startLoop succ st new_videos, new_videos.map fun v => (v, succ v)⟩

/-- Severity of a log message. -/
inductive LogLevel where
  | info
  | warning
  | error
deriving DecidableEq

/-- Observable outcome of a cleanup routine: how many removal attempts were
made, whether the target was removed, the severities of the messages
logged (in order), how many one-second delays were slept, and whether an
exception escaped the routine (which would change the exit code). -/
structure CleanupResult where
  attempts : Nat
  removed : Bool
  logs : List LogLevel
  sleeps : Nat
  fatal : Bool
deriving DecidableEq

/-- Outcome of one `shutil.rmtree` call: success, a PermissionError (the
only exception type the handler at yt2tglocal.py line 214 catches), or
a failure with any other exception. -/
inductive RmtreeOutcome where
  | success
  | permissionError
  | otherError
deriving DecidableEq

/-- The retry loop `for attempt in range(retries)` in the `finally` block of
yt2tglocal.py lines 207-219, iterating over the remaining attempt indices;
`outcome` gives each attempt's `shutil.rmtree` result.  A successful
removal logs info and breaks.  A PermissionError is caught: on a
non-final attempt (`attempt < retries - 1`) it logs error and sleeps
1 second, on the final attempt it logs error and the loop ends - either
way nothing escapes.  Any other exception is not caught by the
`except PermissionError` handler, so it propagates out of the `finally`
block with nothing logged and aborts the process (fatal). -/
def rmtreeLoop (outcome : Nat → RmtreeOutcome) (retries : Nat) : List Nat → CleanupResult
  | [] => ⟨0, false, [], 0, false⟩
  | attempt :: rest =>
    match outcome attempt with
    | .success => ⟨1, true, [LogLevel.info], 0, false⟩
    | .permissionError =>
      if attempt < retries - 1 then
        let r := rmtreeLoop outcome retries rest
        ⟨r.attempts + 1, r.removed, LogLevel.error :: r.logs, r.sleeps + 1, r.fatal⟩
      else
        ⟨1, false, [LogLevel.error], 0, false⟩
    | .otherError => ⟨1, false, [], 0, true⟩

/-- The whole cleanup of the temporary directory in yt2tglocal.py
(`retries = 3`, line 208). -/
def rmtreeCleanup (outcome : Nat → RmtreeOutcome) : CleanupResult :=
  rmtreeLoop outcome 3 (List.range 3)

/-- The outcome family in which the first `failures` attempts raise
PermissionError and the rest succeed. -/
def permFailures (failures : Nat) : Nat → RmtreeOutcome :=
  fun i => if i < failures then RmtreeOutcome.permissionError else RmtreeOutcome.success

/-- The per-item cleanup of the downloaded file in yt2tg.py lines 312-317:
a single `os.remove` in try/except; success logs info, failure logs a
warning; no retry, nothing escapes. -/
def removeCleanup (fails : Bool) : CleanupResult :=
  if fails then ⟨1, false, [LogLevel.warning], 0, false⟩
  else ⟨1, true, [LogLevel.info], 0, false⟩

/-- The character class removed by `re.sub(r'[<>:"/\\|?*\x00-\x1f]', '', ...)`
in `clean_title` (yt2tglocal.py line 39). -/
def forbiddenChar (c : Char) : Bool :=
  c = '<' || c = '>' || c = ':' || c = '"' || c = '/' || c = '\\' ||
  c = '|' || c = '?' || c = '*' || decide (c.toNat ≤ 0x1f)

/-- Characters removed from the ends by Python `str.strip()`: the Unicode
whitespace characters Python recognises. -/
def pyIsSpace (c : Char) : Bool :=
  c = ' ' || decide (0x9 ≤ c.toNat ∧ c.toNat ≤ 0xd) ||
  decide (0x1c ≤ c.toNat ∧ c.toNat ≤ 0x1f) || decide (c.toNat = 0x85) ||
  decide (c.toNat = 0xa0) || decide (c.toNat = 0x1680) ||
  decide (0x2000 ≤ c.toNat ∧ c.toNat ≤ 0x200a) ||
  decide (c.toNat = 0x2028) || decide (c.toNat = 0x2029) ||
  decide (c.toNat = 0x202f) || decide (c.toNat = 0x205f) ||
  decide (c.toNat = 0x3000)

/-- Python `str.strip()`: drop leading and trailing whitespace. -/
def pyStrip (l : List Char) : List Char :=
  ((l.dropWhile pyIsSpace).reverse.dropWhile pyIsSpace).reverse

/-- `clean_title` (yt2tglocal.py lines 32-44).  A falsy argument (None or
the empty string) yields "Unknown Title"; otherwise the forbidden
characters are removed, the result is stripped and cut to 64
characters. -/
def clean_title (title : Option (List Char)) : List Char :=
  match title with
  | none => "Unknown Title".toList
  | some t =>
    if t = [] then "Unknown Title".toList
    else (pyStrip (t.filter fun c => !forbiddenChar c)).take 64

/-- Python `str.isalnum()` restricted to ASCII (the Unicode classes add
further letters and digits; no character relevant to the properties
proved here - path separators, whitespace - is alphanumeric in either
reading). -/
def pyIsAlnum (c : Char) : Bool := c.isAlphanum

/-- `FeedMonitor.clean_filename` (yt2tg.py lines 113-117): keep
alphanumerics, spaces, hyphens and underscores, then strip. -/
def clean_filename (title : List Char) : List Char :=
  pyStrip (title.filter fun c => pyIsAlnum c || c = ' ' || c = '-' || c = '_')

/-- The truncation in `spawn_download_terminal` (yt2tg.py lines 130-133):
`clean_name = clean_filename(title)`, cut to 100 characters when
longer. -/
def spawnCleanName (title : List Char) : List Char :=
  let clean_name := clean_filename title
  if clean_name.length > 100 then clean_name.take 100 else clean_name

/-- POSIX `os.path.join` on two components. -/
def osPathJoin (a b : List Char) : List Char :=
  if b.head? = some '/' then b
  else if a = [] ∨ a.getLast? = some '/' then a ++ b
  else a ++ '/' :: b

/-- The expected download path computed in `spawn_download_terminal`
(yt2tg.py lines 138-140): `os.path.join(dest_dir, clean_name + ".mp3")`. -/
def expectedDownloadPath (title dest_dir : List Char) : List Char :=
  osPathJoin dest_dir (spawnCleanName title ++ ".mp3".toList)

/-! ## Helper lemmas -/

theorem head?_dropWhile_eq_false {α : Type} (p : α → Bool) (l : List α) {c : α}
    (h : (l.dropWhile p).head? = some c) : p c = false := by
  induction l with
  | nil => simp [List.dropWhile] at h
  | cons a t ih =>
    rw [List.dropWhile_cons] at h
    by_cases hp : p a
    · rw [if_pos hp] at h
      exact ih h
    · rw [if_neg hp] at h
      simp only [List.head?_cons, Option.some.injEq] at h
      rw [← h]
      exact Bool.eq_false_iff.mpr hp

theorem pyStrip_head (l : List Char) {c : Char}
    (h : (pyStrip l).head? = some c) : pyIsSpace c = false := by
  unfold pyStrip at h
  set d := l.dropWhile pyIsSpace with hd
  obtain ⟨t, ht⟩ := List.dropWhile_suffix (l := d.reverse) pyIsSpace
  set s := d.reverse.dropWhile pyIsSpace with hs
  have hsrev : s.reverse ≠ [] := by
    intro hnil
    rw [hnil] at h
    simp at h
  have hds : d = s.reverse ++ t.reverse := by
    have h2 := congrArg List.reverse ht
    simpa using h2.symm
  have h3 : d.head? = some c := by
    rw [hds, List.head?_append_of_ne_nil _ hsrev]
    exact h
  exact head?_dropWhile_eq_false pyIsSpace l h3

theorem pyStrip_getLast (l : List Char) {c : Char}
    (h : (pyStrip l).getLast? = some c) : pyIsSpace c = false := by
  unfold pyStrip at h
  rw [List.getLast?_reverse] at h
  exact head?_dropWhile_eq_false pyIsSpace _ h

theorem mem_of_mem_dropWhile {α : Type} (p : α → Bool) (l : List α) {c : α}
    (h : c ∈ l.dropWhile p) : c ∈ l := by
  obtain ⟨t, ht⟩ := List.dropWhile_suffix (l := l) p
  rw [← ht]
  exact List.mem_append_right t h

theorem mem_of_mem_pyStrip (l : List Char) {c : Char} (h : c ∈ pyStrip l) : c ∈ l := by
  unfold pyStrip at h
  rw [List.mem_reverse] at h
  have h1 := mem_of_mem_dropWhile pyIsSpace _ h
  rw [List.mem_reverse] at h1
  exact mem_of_mem_dropWhile pyIsSpace l h1

theorem head?_take_eq {α : Type} {l : List α} {n : Nat} {c : α}
    (h : (l.take n).head? = some c) : l.head? = some c := by
  cases l with
  | nil => simp at h
  | cons a t =>
    cases n with
    | zero => simp at h
    | succ m => simpa using h

theorem advance_eq_max_elim (acc : Option Nat) (p : Nat) :
    advance acc p = max (acc.elim 0 id) p := by
  cases acc with
  | none => simp [advance]
  | some c =>
    simp only [advance, gt_iff_lt, Option.elim, id, Nat.max_def]
    split
    · split
      · rfl
      · omega
    · split
      · omega
      · rfl

theorem foldl_advance (l : List FeedItem) (acc : Option Nat) (h : l ≠ []) :
    l.foldl (fun a v => some (advance a v.published)) acc
      = some (l.foldl (fun m v => max m v.published) (acc.elim 0 id)) := by
  induction l generalizing acc with
  | nil => exact absurd rfl h
  | cons v t ih =>
    rw [List.foldl_cons, List.foldl_cons]
    rcases eq_or_ne t [] with rfl | ht
    · simp [advance_eq_max_elim]
    · rw [ih _ ht]
      simp [advance_eq_max_elim]

theorem startLoop_eq (succ : FeedItem → Bool) (st : StoreState) (l : List FeedItem) :
    startLoop succ st l =
      match (l.filter succ).getLast? with
      | none => st
      | some v => StoreState.valid v.published := by
  induction l using List.reverseRecOn with
  | nil => simp [startLoop]
  | append_singleton xs x ih =>
    rw [startLoop, List.foldl_append]
    by_cases hx : succ x
    · simp only [List.foldl_cons, List.foldl_nil, hx, if_pos]
      rw [List.filter_append]
      simp [hx, List.getLast?_concat]
    · have hfx : List.filter succ [x] = [] := by simp [hx]
      simp only [List.foldl_cons, List.foldl_nil]
      rw [if_neg (by simp [hx]), List.filter_append, hfx, List.append_nil]
      exact ih

theorem sorted_getLast_le (l : List FeedItem) (v : FeedItem)
    (hs : l.Sorted publishedLE) (hl : l.getLast? = some v) :
    ∀ x ∈ l, x.published ≤ v.published := by
  induction l using List.reverseRecOn with
  | nil => simp at hl
  | append_singleton xs y ih =>
    rw [List.getLast?_concat] at hl
    have hyv : y = v := by injection hl
    subst hyv
    intro x hx
    rcases List.mem_append.mp hx with hx | hx
    · exact (List.pairwise_append.mp hs).2.2 x hx y (by simp)
    · simp only [List.mem_singleton] at hx
      subst hx
      exact Nat.le_refl _

theorem le_foldl_max (l : List FeedItem) (a : Nat) :
    a ≤ l.foldl (fun m v => max m v.published) a := by
  induction l generalizing a with
  | nil => exact Nat.le_refl a
  | cons v t ih =>
    rw [List.foldl_cons]
    exact Nat.le_trans (Nat.le_max_left a v.published) (ih (max a v.published))

theorem computeNew_mem (entries : List FeedItem) (W : Option Nat) (x : FeedItem) :
    x ∈ computeNew entries W ↔ x ∈ entries ∧ isNew W x.published = true := by
  unfold computeNew
  rw [(List.perm_insertionSort publishedLE _).mem_iff, List.mem_filter]

/-! ## Claims -/

/-- C1: for every watermark W and item list I, the new-item computation
returns exactly the items of I whose published timestamp is strictly
greater than W (all of I when W is none), sorted ascending by published
timestamp; an item whose published timestamp equals W is not returned. -/
theorem C1_computeNew_exact_and_sorted (entries : List FeedItem) (W : Option Nat) :
    (computeNew entries W).Perm
      (entries.filter fun x =>
        match W with
        | none => true
        | some w => decide (w < x.published)) ∧
    List.Sorted (fun a b : FeedItem => a.published ≤ b.published) (computeNew entries W) ∧
    (∀ x, x ∈ computeNew entries W ↔
      x ∈ entries ∧ ∀ w, W = some w → w < x.published) ∧
    (∀ w x, W = some w → x.published = w → x ∉ computeNew entries W) := by
  refine ⟨?_, ?_, ?_, ?_⟩
  · exact List.perm_insertionSort publishedLE _
  · exact List.sorted_insertionSort publishedLE _
  · intro x
    rw [computeNew_mem]
    cases W with
    | none => simp [isNew]
    | some w => simp [isNew]
  · intro w x hW hx hmem
    subst hW
    rw [computeNew_mem] at hmem
    simp only [isNew, decide_eq_true_eq] at hmem
    omega

/-- C1 witness: with watermark 1 the item published exactly at 1 is not
returned. -/
theorem C1_witness : (⟨0, 1⟩ : FeedItem) ∉ computeNew [⟨0, 1⟩, ⟨1, 2⟩] (some 1) :=
  (C1_computeNew_exact_and_sorted [⟨0, 1⟩, ⟨1, 2⟩] (some 1)).2.2.2 1 ⟨0, 1⟩ rfl rfl

/-- C2 counterexample: in yt-monitor.py, with no prior watermark, a feed
with items at timestamps 1 and 2 where only the first upload succeeds
persists the watermark 2 (the failed item's / maximum timestamp), not the
latest successfully processed timestamp 1. -/
theorem C2_counterexample :
    (monitorMain true true [⟨0, 1⟩, ⟨1, 2⟩] (fun v => v.id == 0) StoreState.absent).store
      = StoreState.valid 2 ∧
    (monitorMain true true [⟨0, 1⟩, ⟨1, 2⟩] (fun v => v.id == 0)
        StoreState.absent).processed.filter (fun p => p.2)
      = [(⟨0, 1⟩, true)] ∧
    (2 : Nat) ≠ 1 := by
  decide

/-- C2 amended: in yt2tg.py the persisted watermark after a run equals the
published timestamp of the latest successfully processed item (the last,
hence largest, successful one); in yt-monitor.py the saved watermark is
the maximum of the prior watermark and all new items' timestamps,
regardless of which per-item uploads succeeded (the `ok` oracle does not
occur in the saved value at all). -/
theorem C2_watermark_policy :
    (∀ parseOk entries (succ : FeedItem → Bool) st v,
      ((get_new_videos parseOk entries st).filter succ).getLast? = some v →
        startLoop succ st (get_new_videos parseOk entries st)
            = StoreState.valid v.published ∧
        ∀ x ∈ (get_new_videos parseOk entries st).filter succ,
          x.published ≤ v.published) ∧
    (∀ entries ok st last_seen, load_last_seen st = .ok last_seen →
      computeNew entries last_seen ≠ [] →
      (monitorMain true true entries ok st).store =
        StoreState.valid ((computeNew entries last_seen).foldl
          (fun m v => max m v.published) (last_seen.elim 0 id))) := by
  constructor
  · intro parseOk entries succ st v hv
    constructor
    · rw [startLoop_eq, hv]
    · have hs : (get_new_videos parseOk entries st).Sorted publishedLE := by
        unfold get_new_videos
        split
        · exact List.sorted_nil
        · exact List.sorted_insertionSort publishedLE _
      exact sorted_getLast_le _ v (hs.filter succ) hv
  · intro entries ok st last_seen hload hne
    simp only [monitorMain, hload, not_true, if_false]
    rw [if_neg hne]
    simp only [foldl_advance _ _ hne]

/-- C2 witness: in the yt2tg.py model, when the item at timestamp 1
succeeds and the later item at timestamp 2 fails, the persisted
watermark is 1. -/
theorem C2_witness :
    startLoop (fun v => v.id == 0) StoreState.absent
        (get_new_videos true [⟨0, 1⟩, ⟨1, 2⟩] StoreState.absent) = StoreState.valid 1 ∧
    ∀ x ∈ (get_new_videos true [⟨0, 1⟩, ⟨1, 2⟩] StoreState.absent).filter
        (fun v => v.id == 0), x.published ≤ 1 :=
  C2_watermark_policy.1 true [⟨0, 1⟩, ⟨1, 2⟩] (fun v => v.id == 0)
    StoreState.absent ⟨0, 1⟩ (by decide)

/-- C3: `advance` is `max` (the candidate itself when there is no current
watermark), never regresses, every run started from a persisted
watermark ends with a persisted watermark at least as large (the store
never reverts to absent), and with no watermark every fetched item is
considered new. -/
theorem C3_advance_monotone :
    (∀ t, advance none t = t) ∧
    (∀ c t, advance (some c) t = max c t) ∧
    (∀ c t, c ≤ advance (some c) t) ∧
    (∀ configOk parseOk entries ok w st, st = StoreState.valid w →
      ∃ w', (monitorMain configOk parseOk entries ok st).store = StoreState.valid w'
        ∧ w ≤ w') ∧
    (∀ entries, (computeNew entries none).Perm entries) := by
  have hmax : ∀ c t, advance (some c) t = max c t := by
    intro c t
    simpa using advance_eq_max_elim (some c) t
  refine ⟨fun t => rfl, hmax, ?_, ?_, ?_⟩
  · intro c t
    rw [hmax]
    exact Nat.le_max_left c t
  · intro configOk parseOk entries ok w st hst
    subst hst
    cases configOk with
    | false => exact ⟨w, rfl, Nat.le_refl w⟩
    | true =>
      cases parseOk with
      | false => exact ⟨w, rfl, Nat.le_refl w⟩
      | true =>
        rcases eq_or_ne (computeNew entries (some w)) [] with hnv | hnv
        · refine ⟨w, ?_, Nat.le_refl w⟩
          simp [monitorMain, load_last_seen, hnv]
        · refine ⟨(computeNew entries (some w)).foldl (fun m v => max m v.published) w,
            ?_, le_foldl_max _ w⟩
          simp only [monitorMain, load_last_seen, not_true, if_false]
          rw [if_neg hnv]
          simp only [foldl_advance _ _ hnv, Option.elim, id]
  · intro entries
    refine (List.perm_insertionSort publishedLE _).trans ?_
    exact List.Perm.of_eq (List.filter_eq_self.mpr fun a _ => rfl)

/-- C3 witness: a run starting from persisted watermark 3 over a feed with
one item at 5 ends with a persisted watermark of at least 3. -/
theorem C3_witness :
    ∃ w', (monitorMain true true [⟨0, 5⟩] (fun _ => true)
        (StoreState.valid 3)).store = StoreState.valid w' ∧ 3 ≤ w' :=
  C3_advance_monotone.2.2.2.1 true true [⟨0, 5⟩] (fun _ => true) 3
    (StoreState.valid 3) rfl

/-- C4 counterexample: in yt-monitor.py a malformed watermark record makes
`load_last_seen` raise (there is no try/except around `json.load` /
`fromisoformat`), so the run aborts with exit code 1, processes nothing
and does not treat the store as absent. -/
theorem C4_counterexample :
    load_last_seen StoreState.malformed = Except.error () ∧
    monitorMain true true [⟨0, 3⟩] (fun _ => true) StoreState.malformed
      = ⟨1, StoreState.malformed, []⟩ ∧
    monitorMain true true [⟨0, 3⟩] (fun _ => true) StoreState.absent
      = ⟨0, StoreState.valid 3, [(⟨0, 3⟩, true)]⟩ := by
  refine ⟨rfl, by decide, by decide⟩

/-- C4 amended: yt2tg.py's loader returns none on an absent or malformed
store and the run continues normally (exit 0, items computed as if no
watermark existed); yt-monitor.py's loader returns none only for an
absent store, and a malformed record aborts that run with exit code 1. -/
theorem C4_load_behavior :
    yt2tg_load_last_seen StoreState.absent = none ∧
    yt2tg_load_last_seen StoreState.malformed = none ∧
    (∀ t, yt2tg_load_last_seen (StoreState.valid t) = some t) ∧
    (∀ parseOk entries succ st, (yt2tgMain true parseOk entries succ st).exitCode = 0) ∧
    (∀ parseOk entries,
      get_new_videos parseOk entries StoreState.malformed
        = get_new_videos parseOk entries StoreState.absent) ∧
    load_last_seen StoreState.absent = Except.ok none ∧
    load_last_seen StoreState.malformed = Except.error () ∧
    (∀ entries ok, (monitorMain true true entries ok StoreState.malformed).exitCode = 1) := by
  refine ⟨rfl, rfl, fun t => rfl, ?_, ?_, rfl, rfl, fun entries ok => rfl⟩
  · intro parseOk entries succ st
    rfl
  · intro parseOk entries
    rfl

/-- C5: a run whose computed new-item set is empty is a no-op: the store is
unchanged, nothing is processed and the exit code is 0 (both scripts). -/
theorem C5_empty_noop :
    (∀ entries ok st last_seen, load_last_seen st = .ok last_seen →
      computeNew entries last_seen = [] →
      monitorMain true true entries ok st = ⟨0, st, []⟩) ∧
    (∀ parseOk entries succ st, get_new_videos parseOk entries st = [] →
      yt2tgMain true parseOk entries succ st = ⟨0, st, []⟩) := by
  constructor
  · intro entries ok st last_seen hload hempty
    simp [monitorMain, hload, hempty]
  · intro parseOk entries succ st hempty
    simp [yt2tgMain, hempty, startLoop]

/-- C5 witness: with an empty feed and no prior watermark both runs are
no-ops with exit code 0. -/
theorem C5_witness :
    monitorMain true true [] (fun _ => true) StoreState.absent
      = ⟨0, StoreState.absent, []⟩ ∧
    yt2tgMain true true [] (fun _ => true) StoreState.absent
      = ⟨0, StoreState.absent, []⟩ :=
  ⟨C5_empty_noop.1 [] (fun _ => true) StoreState.absent none rfl rfl,
   C5_empty_noop.2 true [] (fun _ => true) StoreState.absent rfl⟩

/-- C6: per-item download or upload failures never terminate the run: in
both scripts every computed new item is attempted, in order, whatever
the per-item outcomes are (the failing ones appear with outcome `false`,
matching the logged-and-skipped branches), and the exit code is 0. -/
theorem C6_per_item_failure_skipped :
    (∀ entries ok st last_seen, load_last_seen st = .ok last_seen →
      (monitorMain true true entries ok st).processed
          = (computeNew entries last_seen).map (fun v => (v, ok v)) ∧
      (monitorMain true true entries ok st).exitCode = 0) ∧
    (∀ parseOk entries succ st,
      (yt2tgMain true parseOk entries succ st).processed
          = (get_new_videos parseOk entries st).map (fun v => (v, succ v)) ∧
      (yt2tgMain true parseOk entries succ st).exitCode = 0) := by
  constructor
  · intro entries ok st last_seen hload
    rcases eq_or_ne (computeNew entries last_seen) [] with hnv | hnv
    · constructor
      · simp [monitorMain, hload, hnv]
      · simp [monitorMain, hload, hnv]
    · constructor
      · simp only [monitorMain, hload, not_true, if_false]
        rw [if_neg hnv]
      · simp only [monitorMain, hload, not_true, if_false]
        rw [if_neg hnv]
  · intro parseOk entries succ st
    exact ⟨rfl, rfl⟩

/-- C6 witness: with items at 1 and 2 where only the first succeeds, both
items are still attempted in order and the run exits 0. -/
theorem C6_witness :
    (monitorMain true true [⟨0, 1⟩, ⟨1, 2⟩] (fun v => v.id == 0)
        StoreState.absent).processed
      = (computeNew [⟨0, 1⟩, ⟨1, 2⟩] none).map (fun v => (v, v.id == 0)) ∧
    (monitorMain true true [⟨0, 1⟩, ⟨1, 2⟩] (fun v => v.id == 0)
        StoreState.absent).exitCode = 0 :=
  C6_per_item_failure_skipped.1 [⟨0, 1⟩, ⟨1, 2⟩] (fun v => v.id == 0)
    StoreState.absent none rfl

/-- C7 counterexample: the temporary-file removal of yt2tg.py is attempted
exactly once (no retry, no delay) and its failure is logged as a warning;
the retried temporary-directory removal of yt2tglocal.py logs its final
(and every) failure at error severity, not warning; and an rmtree failure
with an exception other than PermissionError escapes the handler
unlogged and is fatal, so cleanup failure can change the exit code. -/
theorem C7_counterexample :
    (removeCleanup true).attempts = 1 ∧
    (removeCleanup true).sleeps = 0 ∧
    (removeCleanup true).logs = [LogLevel.warning] ∧
    (rmtreeCleanup (permFailures 3)).logs
      = [LogLevel.error, LogLevel.error, LogLevel.error] ∧
    LogLevel.error ≠ LogLevel.warning ∧
    rmtreeCleanup (fun _ => RmtreeOutcome.otherError) = ⟨1, false, [], 0, true⟩ := by
  decide

/-- C7 amended: the temporary-directory removal of yt2tglocal.py retries
only PermissionError failures, up to 3 attempts with a 1-second delay
after each non-final failure, logging every such failure (the final one
included) at error severity, and a PermissionError never escapes; a
removal failure with any other exception is not caught, escapes the
finally block unlogged, and aborts the process.  The temporary-file
removal of yt2tg.py is attempted exactly once and any failure is caught
and logged as a warning, never fatal. -/
theorem C7_cleanup_behavior :
    (∀ failures, rmtreeCleanup (permFailures failures) =
      if failures = 0 then ⟨1, true, [LogLevel.info], 0, false⟩
      else if failures = 1 then ⟨2, true, [LogLevel.error, LogLevel.info], 1, false⟩
      else if failures = 2 then
        ⟨3, true, [LogLevel.error, LogLevel.error, LogLevel.info], 2, false⟩
      else ⟨3, false, [LogLevel.error, LogLevel.error, LogLevel.error], 2, false⟩) ∧
    (∀ outcome, (∀ i, outcome i ≠ RmtreeOutcome.otherError) →
      (rmtreeCleanup outcome).fatal = false) ∧
    (∀ outcome, outcome 0 = RmtreeOutcome.otherError →
      rmtreeCleanup outcome = ⟨1, false, [], 0, true⟩) ∧
    removeCleanup false = ⟨1, true, [LogLevel.info], 0, false⟩ ∧
    removeCleanup true = ⟨1, false, [LogLevel.warning], 0, false⟩ ∧
    (∀ b, (removeCleanup b).fatal = false ∧ (removeCleanup b).attempts = 1) := by
  have hnotfatal : ∀ (outcome : Nat → RmtreeOutcome) retries (l : List Nat),
      (∀ i ∈ l, outcome i ≠ RmtreeOutcome.otherError) →
      (rmtreeLoop outcome retries l).fatal = false := by
    intro outcome retries l h
    induction l with
    | nil => rfl
    | cons a t ih =>
      have ha := h a (List.mem_cons_self a t)
      cases ho : outcome a with
      | success => simp [rmtreeLoop, ho]
      | permissionError =>
        by_cases hlt : a < retries - 1
        · simp only [rmtreeLoop, ho, hlt, if_true]
          exact ih fun i hi => h i (List.mem_cons_of_mem a hi)
        · simp [rmtreeLoop, ho, hlt]
      | otherError => exact absurd ho ha
  refine ⟨?_, ?_, ?_, rfl, rfl, ?_⟩
  · intro failures
    match failures with
    | 0 => decide
    | 1 => decide
    | 2 => decide
    | n + 3 =>
      have hr : List.range 3 = [0, 1, 2] := rfl
      have h0 : 0 < n + 3 := by omega
      have h1 : 1 < n + 3 := by omega
      have h2 : 2 < n + 3 := by omega
      have hn0 : ¬(n + 3 = 0) := by omega
      have hn1 : ¬(n + 3 = 1) := by omega
      have hn2 : ¬(n + 3 = 2) := by omega
      simp [rmtreeCleanup, hr, rmtreeLoop, permFailures, h0, h1, h2, hn0, hn1, hn2]
  · intro outcome h
    exact hnotfatal outcome 3 (List.range 3) fun i _ => h i
  · intro outcome h0
    have hr : List.range 3 = [0, 1, 2] := rfl
    simp [rmtreeCleanup, hr, rmtreeLoop, h0]
  · intro b
    cases b with
    | false => exact ⟨rfl, rfl⟩
    | true => exact ⟨rfl, rfl⟩

/-- C7 witness: a cleanup in which every rmtree call raises PermissionError
never lets an exception escape. -/
theorem C7_witness :
    (rmtreeCleanup (fun _ => RmtreeOutcome.permissionError)).fatal = false :=
  C7_cleanup_behavior.2.1 (fun _ => RmtreeOutcome.permissionError)
    (fun _ h => RmtreeOutcome.noConfusion h)

/-- C8 counterexample: in yt2tg.py a feed-parse failure (bozo feed) does
not end the run with exit code 1: `get_new_videos` returns the empty
list, `start` treats it as nothing to do, and the process exits 0. -/
theorem C8_counterexample :
    (yt2tgMain true false [⟨0, 3⟩] (fun _ => true) StoreState.absent).exitCode = 0 ∧
    (0 : Nat) ≠ 1 := by
  decide

/-- C8 amended: yt-monitor.py exits 1 on missing configuration, on a
feed-parse failure, and on a malformed watermark record (an uncaught
exception), and exits 0 otherwise (success or nothing to do); yt2tg.py
exits 1 only on missing configuration and exits 0 in every other case -
there a feed-parse failure yields an empty new-item list and exit 0. -/
theorem C8_exit_codes :
    (∀ parseOk entries ok st, (monitorMain false parseOk entries ok st).exitCode = 1) ∧
    (∀ entries ok st, (monitorMain true false entries ok st).exitCode = 1) ∧
    (∀ entries ok, (monitorMain true true entries ok StoreState.malformed).exitCode = 1) ∧
    (∀ entries ok st last_seen, load_last_seen st = .ok last_seen →
      (monitorMain true true entries ok st).exitCode = 0) ∧
    (∀ parseOk entries succ st, (yt2tgMain false parseOk entries succ st).exitCode = 1) ∧
    (∀ parseOk entries succ st, (yt2tgMain true parseOk entries succ st).exitCode = 0) := by
  refine ⟨fun parseOk entries ok st => rfl, fun entries ok st => rfl,
    fun entries ok => rfl, ?_, fun parseOk entries succ st => rfl,
    fun parseOk entries succ st => rfl⟩
  intro entries ok st last_seen hload
  rcases eq_or_ne (computeNew entries last_seen) [] with hnv | hnv
  · simp [monitorMain, hload, hnv]
  · simp only [monitorMain, hload, not_true, if_false]
    rw [if_neg hnv]

/-- C8 witness: a run of yt-monitor.py over a well-formed feed with a
fresh store exits 0. -/
theorem C8_witness :
    (monitorMain true true [⟨0, 3⟩] (fun _ => true) StoreState.absent).exitCode = 0 :=
  C8_exit_codes.2.2.2.1 [⟨0, 3⟩] (fun _ => true) StoreState.absent none rfl

/-- C9 counterexample: `clean_title` can return the empty string for a
truthy input (every character of "?" is removed), and truncation to 64
characters can re-expose trailing whitespace, so the result is neither
always non-empty nor always free of trailing whitespace. -/
theorem C9_counterexample :
    clean_title (some ['?']) = [] ∧
    (clean_title (some (List.replicate 63 'a' ++ [' ', 'b']))).getLast? = some ' ' ∧
    pyIsSpace ' ' = true := by
  refine ⟨by decide, by decide, by decide⟩

/-- C9 amended: `clean_title` returns at most 64 characters, none of which
is one of the forbidden filename characters or a control character
U+0000-U+001F, with no leading whitespace; a falsy input (None or the
empty string) yields exactly "Unknown Title".  The result may be empty
when sanitization removes every character, and the final truncation can
leave trailing whitespace. -/
theorem C9_clean_title_props :
    clean_title none = "Unknown Title".toList ∧
    clean_title (some []) = "Unknown Title".toList ∧
    (∀ t, (clean_title t).length ≤ 64) ∧
    (∀ t c, c ∈ clean_title t → forbiddenChar c = false) ∧
    (∀ t c, (clean_title t).head? = some c → pyIsSpace c = false) := by
  have hall : ∀ x ∈ "Unknown Title".toList, forbiddenChar x = false := by decide
  have hsome : ∀ s : List Char, clean_title (some s)
      = if s = [] then "Unknown Title".toList
        else (pyStrip (s.filter fun c => !forbiddenChar c)).take 64 := fun s => rfl
  refine ⟨rfl, rfl, ?_, ?_, ?_⟩
  · intro t
    cases t with
    | none => decide
    | some s =>
      rw [hsome s]
      by_cases hs : s = []
      · rw [if_pos hs]
        decide
      · rw [if_neg hs]
        exact List.length_take_le 64 _
  · intro t c hc
    cases t with
    | none => exact hall c hc
    | some s =>
      rw [hsome s] at hc
      by_cases hs : s = []
      · rw [if_pos hs] at hc
        exact hall c hc
      · rw [if_neg hs] at hc
        have h1 := List.mem_of_mem_take hc
        have h2 := mem_of_mem_pyStrip _ h1
        have h3 := (List.mem_filter.mp h2).2
        simpa using h3
  · intro t c hc
    have hU : ∀ c, ("Unknown Title".toList).head? = some c → pyIsSpace c = false := by
      intro c h
      have h2 : ("Unknown Title".toList).head? = some 'U' := rfl
      rw [h2] at h
      injection h with h
      rw [← h]
      decide
    cases t with
    | none => exact hU c hc
    | some s =>
      rw [hsome s] at hc
      by_cases hs : s = []
      · rw [if_pos hs] at hc
        exact hU c hc
      · rw [if_neg hs] at hc
        exact pyStrip_head _ (head?_take_eq hc)

/-- C9 witness: the sanitized "a?" keeps only 'a', which is neither
forbidden nor whitespace. -/
theorem C9_witness :
    forbiddenChar 'a' = false ∧ pyIsSpace 'a' = false :=
  ⟨C9_clean_title_props.2.2.2.1 (some ['a', '?']) 'a' (by decide),
   C9_clean_title_props.2.2.2.2 (some ['a', '?']) 'a' (by decide)⟩

/-- C10 counterexample: the expected path is `os.path.join(dest_dir, ...)`,
which inserts no separator when `dest_dir` already ends with '/', so it
is not always literally dest_dir + '/' + cleaned-name + ".mp3". -/
theorem C10_counterexample :
    expectedDownloadPath ['a'] ['d', '/'] = ['d', '/', 'a', '.', 'm', 'p', '3'] ∧
    ['d', '/', 'a', '.', 'm', 'p', '3']
      ≠ ['d', '/'] ++ '/' :: (spawnCleanName ['a'] ++ ".mp3".toList) := by
  decide

/-- C10 amended: `clean_filename` keeps only alphanumerics, spaces, hyphens
and underscores and strips surrounding whitespace; the name used by
`spawn_download_terminal` is that string truncated to at most 100
characters, contains no path separator, and the expected path is
`os.path.join(dest_dir, name + ".mp3")`, which equals
dest_dir + '/' + name + ".mp3" whenever dest_dir is nonempty and does
not already end with '/'. -/
theorem C10_expected_path :
    (∀ title c, c ∈ clean_filename title →
      (pyIsAlnum c || c = ' ' || c = '-' || c = '_') = true) ∧
    (∀ title c, (clean_filename title).head? = some c → pyIsSpace c = false) ∧
    (∀ title c, (clean_filename title).getLast? = some c → pyIsSpace c = false) ∧
    (∀ title, (spawnCleanName title).length ≤ 100) ∧
    (∀ title, '/' ∉ spawnCleanName title) ∧
    (∀ title dest_dir, dest_dir ≠ [] → dest_dir.getLast? ≠ some '/' →
      expectedDownloadPath title dest_dir
        = dest_dir ++ '/' :: (spawnCleanName title ++ ".mp3".toList)) := by
  have hdef : ∀ title, spawnCleanName title
      = if (clean_filename title).length > 100 then (clean_filename title).take 100
        else clean_filename title := fun title => rfl
  have hchars : ∀ title c, c ∈ clean_filename title →
      (pyIsAlnum c || c = ' ' || c = '-' || c = '_') = true := by
    intro title c hc
    have h1 := mem_of_mem_pyStrip _ hc
    exact (List.mem_filter.mp h1).2
  have hslash : ∀ title, '/' ∉ spawnCleanName title := by
    intro title h
    rw [hdef title] at h
    by_cases hl : (clean_filename title).length > 100
    · rw [if_pos hl] at h
      exact absurd (hchars title '/' (List.mem_of_mem_take h)) (by decide)
    · rw [if_neg hl] at h
      exact absurd (hchars title '/' h) (by decide)
  have hb : ∀ l : List Char, '/' ∉ l → (l ++ ".mp3".toList).head? ≠ some '/' := by
    intro l hl h
    cases l with
    | nil => exact absurd h (by decide)
    | cons x xs =>
      rw [List.head?_append_of_ne_nil _ (by simp)] at h
      simp only [List.head?_cons, Option.some.injEq] at h
      subst h
      exact hl (List.mem_cons_self _ _)
  refine ⟨hchars, ?_, ?_, ?_, hslash, ?_⟩
  · intro title c hc
    exact pyStrip_head _ hc
  · intro title c hc
    exact pyStrip_getLast _ hc
  · intro title
    rw [hdef title]
    by_cases hl : (clean_filename title).length > 100
    · rw [if_pos hl]
      exact List.length_take_le 100 _
    · rw [if_neg hl]
      omega
  · intro title dest_dir hne hlast
    unfold expectedDownloadPath osPathJoin
    rw [if_neg (hb _ (hslash title)), if_neg (not_or.mpr ⟨hne, hlast⟩)]

/-- C10 witness: for title "a" and destination "d" the expected path is
exactly "d" + '/' + "a" + ".mp3". -/
theorem C10_witness :
    expectedDownloadPath ['a'] ['d']
      = ['d'] ++ '/' :: (spawnCleanName ['a'] ++ ".mp3".toList) :=
  C10_expected_path.2.2.2.2.2 ['a'] ['d'] (by decide) (by decide)
